import Mathlib

/-!
Shallow embedding of the model-comparison and feature-engineering core of the
Climate_modelisation_tool repository (files `clim_model_utils.py`,
`clim_model_comparison.py`, `clim_preprocessing.py`, `clim_app.py`), together
with theorems settling the specification claims about it.

Modelling conventions:
* a pandas numeric cell is `Option ℚ` (`none` models NaN);
* machine floats are modelled by exact rationals (the code's comparisons are
  against exact decimal literals, so no claim here depends on rounding);
* exceptions raised by a function are modelled by an `Except String` result;
* behaviour of external scikit-learn estimators (`fit`/`predict`/CV) is an
  oracle parameter of the embedding, since the estimators are library code.
-/

set_option maxHeartbeats 1000000

namespace ClimTool

/-- A pandas cell of a numeric column: `none` models NaN. -/
abbrev Cell := Option ℚ

/-- `Series.nunique(dropna=True)`: number of distinct non-missing values. -/
def nuniqueList (vs : List Cell) : ℕ := ((vs.filterMap id).dedup).length

/-! ## Task-type detection (`clim_model_utils.detect_task_type`) -/

/-- The `TaskType` literal of `clim_model_utils.py`. -/
inductive TaskKind
  | classification
  | regression
deriving DecidableEq, Repr

/-- A pandas target series, as far as `detect_task_type` inspects it: its
storage dtype (object/category or numeric) and its cells. -/
structure TargetSeries where
  isObjectOrCategory : Bool
  values : List Cell
deriving DecidableEq

/-- Embedding of `clim_model_utils.detect_task_type`.  Raised `ValueError`s
become `Except.error` with the source's message. -/
def detect_task_type (y : TargetSeries) : Except String TaskKind :=
  if y.values.length = 0 then
    .error "La série cible est vide"
  else if y.values.all (fun v => v.isNone) then
    .error "La série cible ne contient que des valeurs manquantes"
  else if y.isObjectOrCategory then
    .ok .classification
  else
    let n_unique := nuniqueList y.values
    let n_total := y.values.length
    if n_total = 0 then
      .error "La série cible ne contient aucune valeur valide"
    else if n_unique ≤ 20 ∧ ((n_unique : ℚ) / (n_total : ℚ)) < 1 / 10 then
      .ok .classification
    else
      .ok .regression

/-- A concrete numeric target with 2 distinct values among 30 rows:
`nunique = 2 ≤ 20` and `2/30 < 1/10`, so classification. -/
def c1Target : TargetSeries :=
  { isObjectOrCategory := false
    values := List.replicate 15 (some 0) ++ List.replicate 15 (some 1) }

/-! ## Preprocessor construction (`clim_model_utils.build_preprocessor`) -/

/-- The pandas storage dtypes that `build_preprocessor` distinguishes.
`select_dtypes(include=["int64", "float64"])` picks the first two,
`select_dtypes(include=["object", "category"])` the next two; `other` stands
for every remaining dtype (bool, datetime64, int32, ...), which matches
neither selector. -/
inductive Dtype
  | int64
  | float64
  | object
  | category
  | other
deriving DecidableEq, Repr

/-- Whether `select_dtypes(include=["int64", "float64"])` keeps the dtype. -/
def Dtype.isNumeric : Dtype → Bool
  | .int64 => true
  | .float64 => true
  | _ => false

/-- Whether `select_dtypes(include=["object", "category"])` keeps the dtype. -/
def Dtype.isCategorical : Dtype → Bool
  | .object => true
  | .category => true
  | _ => false

/-- A DataFrame column as `build_preprocessor` inspects it: a name, a storage
dtype and cells (categorical values are modelled by numeric codes, which is
enough because only `nunique` is read from them). -/
structure PCol where
  name : String
  dtype : Dtype
  values : List Cell
deriving DecidableEq

/-- A feature DataFrame. -/
structure PFrame where
  cols : List PCol
deriving DecidableEq

/-- Number of rows (pandas `len(X)`); columns are assumed equal-length. -/
def PFrame.nrows (X : PFrame) : ℕ :=
  match X.cols with
  | [] => 0
  | c :: _ => c.values.length

/-- `X[col].nunique()` for a column. -/
def PCol.nunique (c : PCol) : ℕ := nuniqueList c.values

/-- The content of the `ColumnTransformer` built by `build_preprocessor`:
which columns go to the numeric pipeline (impute median, optionally scale),
which go to the categorical pipeline (impute constant, one-hot encode), and
the one-hot category cap.  An empty group models an absent transformer, and
`remainder="drop"` drops every column in neither group. -/
structure ColumnTransformerPlan where
  numeric_features : List String
  numericScale : Bool
  categorical_features : List String
  oneHotMaxCategories : Option ℕ
deriving DecidableEq, Repr

/-- Embedding of `clim_model_utils.build_preprocessor`.  The source's two
emptiness checks (`X.empty`, `X.shape[1] == 0`) collapse into one: pandas
`X.empty` is already true when either axis has length 0, so the second raise
is unreachable. -/
def build_preprocessor (X : PFrame) (do_scale : Bool) (handle_high_cardinality : Bool) :
    Except String ColumnTransformerPlan :=
  if X.cols.length = 0 ∨ X.nrows = 0 then
    .error "Le DataFrame X est vide"
  else
    let numeric_features := (X.cols.filter (fun c => c.dtype.isNumeric)).map PCol.name
    let cat_kept :=
      if handle_high_cardinality then
        (X.cols.filter (fun c => c.dtype.isCategorical && decide (c.nunique ≤ 100))).map PCol.name
      else
        (X.cols.filter (fun c => c.dtype.isCategorical)).map PCol.name
    .ok
      { numeric_features := numeric_features
        numericScale := do_scale
        categorical_features := cat_kept
        oneHotMaxCategories := if handle_high_cardinality then some 50 else none }

/-- A frame with one float64 column and one column of a dtype that is neither
numeric nor categorical (e.g. a datetime64 column). -/
def c4Frame : PFrame :=
  { cols :=
      [ { name := "x", dtype := .float64, values := [some 1, some 2] }
      , { name := "when", dtype := .other, values := [some 0, some 1] } ] }

/-- The plan `build_preprocessor` produces on `c4Frame` with both flags on. -/
def c4Plan : ColumnTransformerPlan :=
  { numeric_features := ["x"]
    numericScale := true
    categorical_features := []
    oneHotMaxCategories := some 50 }

/-! ## Time-series feature engineering (`clim_preprocessing.py`)

Tables are column-major; every value column is numeric with `Option ℚ`
cells.  The date column is an ordinary column whose cells act as sort keys.
-/

/-- A DataFrame column for the feature-engineering operations. -/
structure FCol where
  name : String
  values : List Cell
deriving DecidableEq, Repr

/-- A date-indexed DataFrame, column-major with index-aligned rows. -/
structure FTable where
  cols : List FCol
deriving DecidableEq, Repr

/-- `df.columns`. -/
def FTable.colNames (t : FTable) : List String := t.cols.map FCol.name

/-- `col in df.columns`. -/
def FTable.hasCol (t : FTable) (n : String) : Bool := t.colNames.contains n

/-- `df[col]` (first column of that name). -/
def FTable.getColVals (t : FTable) (n : String) : Option (List Cell) :=
  (t.cols.find? (fun c => c.name == n)).map FCol.values

/-- `len(df)`. -/
def FTable.nrows (t : FTable) : ℕ :=
  match t.cols with
  | [] => 0
  | c :: _ => c.values.length

/-- Index alignment: every column has the table's row count. -/
abbrev FTable.Wellformed (t : FTable) : Prop :=
  ∀ c ∈ t.cols, c.values.length = t.nrows

/-- `sort_values` key order on cells: NaN sorts after every value. -/
def cellLt : Cell → Cell → Bool
  | some a, some b => decide (a < b)
  | some _, none => true
  | none, _ => false

/-- Stable insertion of row index `i` (an earlier original position than
every index in the list) into an index list sorted by the date key. -/
def insertIdx (keys : List Cell) (i : ℕ) : List ℕ → List ℕ
  | [] => [i]
  | j :: js =>
      if cellLt (keys.getD j none) (keys.getD i none) then j :: insertIdx keys i js
      else i :: j :: js

/-- The row permutation that `sort_values` applies: a sort of the row
indices by the date-column key. -/
def sortPerm (keys : List Cell) : List ℕ :=
  List.foldr (insertIdx keys) [] (List.range keys.length)

/-- `df.sort_values(date_col)`: apply the date column's sort permutation to
every column.  (Only reached when the date column exists; callers that reach
it without the column model pandas' `KeyError` instead.) -/
def FTable.sortValues (t : FTable) (dateCol : String) : FTable :=
  match t.getColVals dateCol with
  | none => t
  | some keys =>
      { cols := t.cols.map (fun c =>
          { c with values := (sortPerm keys).map (fun i => c.values.getD i none) }) }

/-- The trailing window of at most `w` rows ending at row `i`. -/
def windowSlice (l : List Cell) (w i : ℕ) : List Cell :=
  (l.take (i + 1)).drop (i + 1 - w)

/-- pandas `rolling(window=w, min_periods=1).mean()`: mean of the non-NaN
cells of the trailing window, NaN when the window has none. -/
def rollingMean (w : ℕ) (l : List Cell) : List Cell :=
  (List.range l.length).map (fun i =>
    let vals := (windowSlice l w i).filterMap id
    if vals.length = 0 then none else some (vals.sum / (vals.length : ℚ)))

/-- pandas `rolling(window=w, min_periods=1).sum()`: sum of the non-NaN
cells of the trailing window, NaN when the window has none. -/
def rollingSum (w : ℕ) (l : List Cell) : List Cell :=
  (List.range l.length).map (fun i =>
    let vals := (windowSlice l w i).filterMap id
    if vals.length = 0 then none else some vals.sum)

/-- Embedding of `clim_preprocessing.add_rolling_features`.  When the date
column is absent the source returns the input unchanged (no exception);
requested value columns absent from the table are filtered out silently.
`value_cols=None` defaults to the numeric columns, which in this all-numeric
embedding is every column. -/
def add_rolling_features (df : FTable) (date_col : String)
    (value_cols : Option (List String)) (windows : Option (List ℕ)) : FTable :=
  let ws := windows.getD [3, 7]
  if df.hasCol date_col then
    let new_df := df.sortValues date_col
    let vcols := value_cols.getD new_df.colNames
    let valid_cols := vcols.filter (fun c => new_df.hasCol c)
    ws.foldl (fun acc w =>
      { cols := acc.cols ++ valid_cols.map (fun c =>
          { name := c ++ "_roll_" ++ toString w
            values := rollingMean w ((new_df.getColVals c).getD []) }) }) new_df
  else df

/-- Embedding of `clim_preprocessing.add_cumulative_features`.  A missing
date column makes pandas `sort_values` raise `KeyError`; requested value
columns absent from the table are filtered out silently. -/
def add_cumulative_features (df : FTable) (date_col : String)
    (value_cols : List String) (windows : List ℕ) : Except String FTable :=
  if df.hasCol date_col then
    let df_out := df.sortValues date_col
    let valid_cols := value_cols.filter (fun c => df_out.hasCol c)
    .ok (windows.foldl (fun acc w =>
      { cols := acc.cols ++ valid_cols.map (fun c =>
          { name := c ++ "_cumul_" ++ toString w ++ "j"
            values := rollingSum w ((df_out.getColVals c).getD []) }) }) df_out)
  else .error ("KeyError: " ++ date_col)

/-- `(series > threshold).astype(int)`: NaN compares false, giving 0. -/
def exceedIndicator (t : ℚ) (l : List Cell) : List Cell :=
  l.map (fun v =>
    match v with
    | some x => if t < x then some 1 else some 0
    | none => some 0)

/-- Embedding of `clim_preprocessing.add_threshold_exceedance_features`.
A missing date column makes pandas `sort_values` raise `KeyError`; value
columns absent from the table or from the `thresholds` map are skipped
silently.  (The generated column name renders the threshold with `toString`;
Python's float formatting differs in decoration only, which no claim
inspects.) -/
def add_threshold_exceedance_features (df : FTable) (date_col : String)
    (value_cols : List String) (thresholds : List (String × ℚ))
    (windows : List ℕ) : Except String FTable :=
  if df.hasCol date_col then
    .ok (value_cols.foldl (fun acc c =>
      match (if acc.hasCol c then thresholds.lookup c else none) with
      | none => acc
      | some t =>
          let exceed := exceedIndicator t ((acc.getColVals c).getD [])
          windows.foldl (fun acc2 w =>
            { cols := acc2.cols ++
                [{ name := c ++ "_days_above_" ++ toString t ++ "_" ++ toString w ++ "j"
                   values := rollingSum w exceed }] }) acc)
      (df.sortValues date_col))
  else .error ("KeyError: " ++ date_col)

/-- `df[col]` on the result of a fallible feature operation. -/
def exceptGetCol (r : Except String FTable) (n : String) : Option (List Cell) :=
  match r with
  | .ok t => t.getColVals n
  | .error _ => none

/-- Whether a fallible feature operation succeeded. -/
def exceptIsOk (r : Except String FTable) : Bool :=
  match r with
  | .ok _ => true
  | .error _ => false

/-! ## Z-score anomaly detection (`clim_preprocessing.detect_zscore_anomalies`) -/

/-- A boolean outlier-flag column of the `flags` output DataFrame. -/
structure FlagCol where
  name : String
  flags : List Bool
deriving DecidableEq, Repr

/-- Mean of the non-missing observations. -/
def listMean (l : List ℚ) : ℚ := l.sum / (l.length : ℚ)

/-- Sum of squared deviations from the mean; with `n ≥ 2` observations the
pandas sample std (`ddof=1`) is zero exactly when this sum is zero. -/
def sqDevSum (l : List ℚ) : ℚ := (l.map (fun x => (x - listMean l) ^ 2)).sum

/-- The source's skip condition `df[col].std() == 0`: the sample std is an
actual zero (it is NaN, hence not zero, when fewer than two non-missing
observations exist). -/
def stdIsZero (valid : List ℚ) : Bool :=
  decide (2 ≤ valid.length) && decide (sqDevSum valid = 0)

/-- Whether `|x - mean| / std > threshold` for the column's sample std.
With fewer than two observations the std is NaN and every float comparison
against it is false.  Otherwise the test is taken in the squared form
`(x - mean)² · (n - 1) > threshold² · Σ(xᵢ - mean)²`, equivalent to the
source's for `threshold ≥ 0` (and `z > threshold` is always true for a
negative threshold since `z ≥ 0`); this form stays in ℚ, so the embedding
never forms the square root and never divides. -/
def zExceeds (valid : List ℚ) (threshold : ℚ) (x : ℚ) : Bool :=
  if valid.length < 2 then false
  else if threshold < 0 then true
  else decide ((x - listMean valid) ^ 2 * ((valid.length : ℚ) - 1)
        > threshold ^ 2 * sqDevSum valid)

/-- Per-column contribution to the `flags` DataFrame of
`detect_zscore_anomalies`: `none` when the column is absent or skipped. -/
def zscoreColFlag (df : FTable) (threshold : ℚ) (c : String) : Option FlagCol :=
  match df.getColVals c with
  | none => none
  | some vs =>
      let valid := vs.filterMap id
      if stdIsZero valid then none
      else some
        { name := c ++ "_outlier"
          flags := vs.map (fun v =>
            match v with
            | some x => zExceeds valid threshold x
            | none => false) }

/-- Per-column contribution to the summary dict of
`detect_zscore_anomalies`: `(col, nb_outliers, pct_outliers)`.  The source
additionally rounds the percentage to two decimals, which no claim
inspects. -/
def zscoreColSummary (df : FTable) (threshold : ℚ) (c : String) :
    Option (String × ℕ × ℚ) :=
  match df.getColVals c with
  | none => none
  | some vs =>
      let valid := vs.filterMap id
      if stdIsZero valid then none
      else
        let flags := vs.map (fun v =>
          match v with
          | some x => zExceeds valid threshold x
          | none => false)
        let nb := flags.count true
        some (c, nb, if 0 < df.nrows then 100 * (nb : ℚ) / (df.nrows : ℚ) else 0)

/-- Embedding of `clim_preprocessing.detect_zscore_anomalies`.  The source
builds both outputs in a single pass over the requested columns; each
column's contribution is independent of the others, so the outputs are the
per-column contributions concatenated in request order.  `value_cols=None`
defaults to the numeric columns — every column in this embedding. -/
def detect_zscore_anomalies (df : FTable) (value_cols : Option (List String))
    (threshold : ℚ) : List FlagCol × List (String × ℕ × ℚ) :=
  let cols := value_cols.getD df.colNames
  (cols.filterMap (zscoreColFlag df threshold),
   cols.filterMap (zscoreColSummary df threshold))

/-! ### Concrete tables used by witnesses and counterexamples -/

/-- A 2-row table with a date column and one value column `x`. -/
def c5df : FTable :=
  { cols := [ { name := "date", values := [some 0, some 1] }
            , { name := "x", values := [some 1, some 2] } ] }

/-- A table without any date column. -/
def c5noDate : FTable :=
  { cols := [ { name := "x", values := [some 1, some 2] } ] }

/-- 40 daily temperature values `1, 2, ..., 40`. -/
def c8xs : List ℚ := (List.range 40).map (fun j => ((j : ℚ) + 1))

/-- 40 strictly increasing daily dates. -/
def c8keys : List Cell := (List.range 40).map (fun j => some ((j : ℕ) : ℚ))

/-- The 40-day temperature table of end-to-end scenario 2. -/
def c8df : FTable :=
  { cols := [ { name := "date", values := c8keys }
            , { name := "temperature", values := c8xs.map some } ] }

/-- A 3-row table whose value column contains a NaN cell. -/
def c9df : FTable :=
  { cols := [ { name := "date", values := [some 0, some 1, some 2] }
            , { name := "temp", values := [some 5, none, some 7] } ] }

/-- A table with a constant column (sample std 0) and a varying column. -/
def c10df : FTable :=
  { cols := [ { name := "const", values := [some 1, some 1, some 1] }
            , { name := "var", values := [some 0, some 2, some 0] } ] }

/-! ## Model comparison (`clim_model_comparison.py`) -/

/-- The record `train_and_evaluate_model` returns.  Fields no claim inspects
(wall-clock `training_time`, the fitted pipeline object, the retained test
split, predictions and probabilities) are omitted; `error` is `none` exactly
when the source's success record carries no `error` key.  Target and
prediction values are ℚ (class labels as numeric codes). -/
structure TrainResult where
  model_name : String
  test_score : Option ℚ
  train_score : Option ℚ
  f1_score : Option ℚ
  rmse : Option ℚ
  cv_scores : Option (List ℚ)
  metric_name : Option String
  success : Bool
  error : Option String
deriving DecidableEq, Repr

/-- `sklearn.metrics.accuracy_score`: fraction of equal pairs. -/
def accuracy_score (y_true y_pred : List ℚ) : ℚ :=
  (((y_true.zip y_pred).filter (fun p => decide (p.1 = p.2))).length : ℚ)
    / (y_true.length : ℚ)

/-- `sklearn.metrics.r2_score`: `1 - SSres/SStot`, with sklearn's edge
values 1 when both sums vanish and 0 when only the total sum does. -/
def r2_score (y_true y_pred : List ℚ) : ℚ :=
  let ybar := listMean y_true
  let ssRes := ((y_true.zip y_pred).map (fun p => (p.1 - p.2) ^ 2)).sum
  let ssTot := (y_true.map (fun y => (y - ybar) ^ 2)).sum
  if ssTot == 0 then (if ssRes == 0 then 1 else 0) else 1 - ssRes / ssTot

/-- `sklearn.metrics.mean_squared_error`.  The source reports
`np.sqrt` of this as RMSE; the square root is irrational, so the embedding
keeps the squared value, which is null exactly when the source's RMSE is
and orders candidate models identically. -/
def mean_squared_error (y_true y_pred : List ℚ) : ℚ :=
  ((y_true.zip y_pred).map (fun p => (p.1 - p.2) ^ 2)).sum / (y_true.length : ℚ)

/-- `f1_score(average="weighted", zero_division=0)`: per true class,
F1 from precision and recall with zero-division falling back to 0, averaged
with the class supports as weights. -/
def f1_weighted (y_true y_pred : List ℚ) : ℚ :=
  let per := y_true.dedup.map (fun cl =>
    let tp := ((y_true.zip y_pred).filter
      (fun p => decide (p.1 = cl) && decide (p.2 = cl))).length
    let predCount := (y_pred.filter (fun y => decide (y = cl))).length
    let trueCount := (y_true.filter (fun y => decide (y = cl))).length
    let prec : ℚ := if predCount = 0 then 0 else (tp : ℚ) / (predCount : ℚ)
    let rcl : ℚ := if trueCount = 0 then 0 else (tp : ℚ) / (trueCount : ℚ)
    let f1 : ℚ := if prec + rcl = 0 then 0 else 2 * prec * rcl / (prec + rcl)
    ((trueCount : ℚ), f1))
  (per.map (fun p => p.1 * p.2)).sum / (y_true.length : ℚ)

/-- Outcome of the scikit-learn calls inside `train_and_evaluate_model`'s
`try` block for one (estimator, data) pair.  The estimators are external
library objects, so their behaviour is a parameter of the embedding:
`fitPredict` is either the raised exception's message or the pair of test
and train predictions; `cv` is the `cross_val_score` outcome (caught by the
source's inner `try`). -/
structure FitOutcome where
  fitPredict : Except String (List ℚ × List ℚ)
  cv : Except String (List ℚ)
deriving Repr

/-- Embedding of `clim_model_comparison.train_and_evaluate_model`. -/
def train_and_evaluate_model (model_name : String) (m : FitOutcome)
    (y_train y_test : List ℚ) (task : TaskKind) (use_cv : Bool) : TrainResult :=
  match m.fitPredict with
  | .ok preds =>
      let y_pred := preds.1
      let y_train_pred := preds.2
      let test_score :=
        match task with
        | .classification => accuracy_score y_test y_pred
        | .regression => r2_score y_test y_pred
      let train_score :=
        match task with
        | .classification => accuracy_score y_train y_train_pred
        | .regression => r2_score y_train y_train_pred
      { model_name := model_name
        test_score := some test_score
        train_score := some train_score
        f1_score :=
          match task with
          | .classification => some (f1_weighted y_test y_pred)
          | .regression => none
        rmse :=
          match task with
          | .classification => none
          | .regression => some (mean_squared_error y_test y_pred)
        cv_scores := if use_cv then m.cv.toOption else none
        metric_name := some
          (match task with
           | .classification => "Accuracy"
           | .regression => "R²")
        success := true
        error := none }
  | .error e =>
      { model_name := model_name
        test_score := none
        train_score := none
        f1_score := none
        rmse := none
        cv_scores := none
        metric_name := none
        success := false
        error := some e }

/-- The catalog names of `get_available_models` per (task, fast_mode), in
source insertion order.  The estimator configurations themselves are
scikit-learn objects whose behaviour the embedding represents through a
`FitOutcome` oracle per model name. -/
def get_available_models (task : TaskKind) (fast_mode : Bool) : List String :=
  match task, fast_mode with
  | .classification, true =>
      ["Random Forest", "Gradient Boosting", "Logistic Regression", "Decision Tree",
       "Extra Trees"]
  | .classification, false =>
      ["Random Forest", "Gradient Boosting", "Logistic Regression", "Decision Tree",
       "Extra Trees", "AdaBoost", "K-Nearest Neighbors", "Naive Bayes"]
  | .regression, true =>
      ["Random Forest", "Gradient Boosting", "Linear Regression", "Ridge",
       "Decision Tree", "Extra Trees"]
  | .regression, false =>
      ["Random Forest", "Gradient Boosting", "Linear Regression", "Ridge", "Lasso",
       "Decision Tree", "Extra Trees", "AdaBoost", "K-Nearest Neighbors"]

/-- The `selected_models` filter of `compare_models`: Python's
`if selected_models:` treats both `None` and an empty list as "no filter";
otherwise the catalog keeps, in its own order, the names the caller
listed. -/
def filter_selected (avail : List String) (selected : Option (List String)) :
    List String :=
  match selected with
  | none => avail
  | some sel => if sel = [] then avail else avail.filter (fun k => sel.contains k)

/-- The training loop of `compare_models`: every candidate is trained in
catalog order and its result appended, success or failure (progress-bar and
status widgets are UI side effects outside the embedding). -/
def compare_models_loop (models : List (String × FitOutcome))
    (y_train y_test : List ℚ) (task : TaskKind) (use_cv : Bool) :
    List TrainResult :=
  models.map (fun nm => train_and_evaluate_model nm.1 nm.2 y_train y_test task use_cv)

/-- Candidate resolution followed by the training loop of `compare_models`,
with the per-candidate library behaviour given by the oracle `behave`. -/
def compare_models_results (task : TaskKind) (fast_mode : Bool)
    (selected : Option (List String)) (behave : String → FitOutcome)
    (y_train y_test : List ℚ) (use_cv : Bool) : List TrainResult :=
  compare_models_loop
    ((filter_selected (get_available_models task fast_mode) selected).map
      (fun n => (n, behave n)))
    y_train y_test task use_cv

/-- Whether `train_test_split(..., stratify=y)` raises: scikit-learn rejects
stratification when the least populated class has fewer than two members
(the failure mode the spec's scenario exercises). -/
def stratifyRaises (y : List ℚ) : Bool :=
  y.any (fun c => y.count c < 2)

/-- The parameters `compare_models` passes to `train_test_split`. -/
structure SplitSpec where
  stratified : Bool
  random_state : ℕ
  test_size : ℚ
deriving DecidableEq, Repr

/-- The split stage of `compare_models` (lines 283–296): stratify only for
classification without `handle_imbalance`; fall back to a plain split when
stratification raises; seed 42 always; `test_size` passed through (default
0.2 in the source signature). -/
def compare_models_split (task : TaskKind) (handle_imbalance : Bool)
    (y : List ℚ) (test_size : ℚ) : SplitSpec :=
  if task = .classification ∧ handle_imbalance = false then
    if stratifyRaises y then
      { stratified := false, random_state := 42, test_size := test_size }
    else
      { stratified := true, random_state := 42, test_size := test_size }
  else
    { stratified := false, random_state := 42, test_size := test_size }

/-- `np.argmax`: index of the first maximal entry. -/
def argmaxFirst : List ℚ → ℕ
  | [] => 0
  | [_] => 0
  | x :: y :: xs =>
      let j := argmaxFirst (y :: xs)
      if (y :: xs).getD j 0 ≤ x then 0 else j + 1

/-- The best-model selection of `display_comparison_results`: among the
successful results, the first one attaining the maximal test score; `none`
when no model succeeded. -/
def display_comparison_best (results : List TrainResult) : Option TrainResult :=
  let successful := results.filter (fun r => r.success)
  if successful.isEmpty then none
  else successful.get? (argmaxFirst (successful.map (fun r => r.test_score.getD 0)))

/-- A model whose `fit` raises (e.g. an out-of-range hyperparameter). -/
def c2fail : FitOutcome :=
  { fitPredict := .error "ValueError: max_depth must be greater than zero"
    cv := .error "not reached" }

/-- A model that trains fine. -/
def c2ok : FitOutcome :=
  { fitPredict := .ok ([1, 2], [1, 2, 3])
    cv := .ok [1, 1] }

/-- A successful result named A with test score 1. -/
def c6a : TrainResult :=
  { model_name := "A", test_score := some 1, train_score := some 1,
    f1_score := none, rmse := some 0, cv_scores := none,
    metric_name := some "R²", success := true, error := none }

/-- A successful result named B with the same test score 1 (a tie with A). -/
def c6b : TrainResult :=
  { model_name := "B", test_score := some 1, train_score := some 1,
    f1_score := none, rmse := some 0, cv_scores := none,
    metric_name := some "R²", success := true, error := none }

/-- A failed result, to be ignored by the best-model selection. -/
def c6f : TrainResult :=
  { model_name := "F", test_score := none, train_score := none,
    f1_score := none, rmse := none, cv_scores := none,
    metric_name := none, success := false, error := some "boom" }

end ClimTool

namespace ClimTool

/-- C1: for every non-empty target series that is not entirely missing,
`detect_task_type` returns classification iff the dtype is non-numeric
(object/category) or the distinct count is ≤ 20 with distinct/total ratio
< 0.1, and returns regression otherwise. -/
theorem C1_detect_task_type (y : TargetSeries)
    (hne : y.values.length ≠ 0)
    (hnm : ¬ y.values.all (fun v => v.isNone) = true) :
    (detect_task_type y = .ok .classification ↔
      (y.isObjectOrCategory = true ∨
        (nuniqueList y.values ≤ 20 ∧
          ((nuniqueList y.values : ℚ) / (y.values.length : ℚ)) < 1 / 10)))
    ∧ (detect_task_type y = .ok .regression ↔
      ¬ (y.isObjectOrCategory = true ∨
        (nuniqueList y.values ≤ 20 ∧
          ((nuniqueList y.values : ℚ) / (y.values.length : ℚ)) < 1 / 10))) := by
  unfold detect_task_type
  simp only [if_neg hne, if_neg hnm, if_neg hne]
  by_cases hoc : y.isObjectOrCategory
  · simp [hoc]
  · simp only [hoc, if_false, Bool.false_eq_true, false_or]
    by_cases hcond : nuniqueList y.values ≤ 20 ∧
        ((nuniqueList y.values : ℚ) / (y.values.length : ℚ)) < 1 / 10
    · simp [hcond]
    · simp [hcond]

/-- With pairwise-distinct column names, a name occurs in the projection of a
filtered column list exactly when its own column passes the filter. -/
theorem mem_filterName_iff (cols : List PCol) (p : PCol → Bool) (c : PCol)
    (hnodup : (cols.map PCol.name).Nodup) (hc : c ∈ cols) :
    c.name ∈ (cols.filter p).map PCol.name ↔ p c = true := by
  constructor
  · intro hmem
    obtain ⟨c', hc', hname⟩ := List.mem_map.mp hmem
    obtain ⟨hc'mem, hp⟩ := List.mem_filter.mp hc'
    have hinj := List.inj_on_of_nodup_map hnodup
    have heq : c' = c := hinj hc'mem hc hname
    subst heq
    exact hp
  · intro hp
    exact List.mem_map_of_mem _ (List.mem_filter.mpr ⟨hc, hp⟩)

/-- No dtype is both numeric and categorical for `select_dtypes`. -/
theorem Dtype.not_numeric_and_categorical (d : Dtype) :
    ¬ (d.isNumeric = true ∧ d.isCategorical = true) := by
  cases d <;> simp [Dtype.isNumeric, Dtype.isCategorical]

/-- C4 (amended): the plan's groups classify the columns by dtype — numeric
(int64/float64) columns go to the numeric pipeline, object/category columns
go to the categorical pipeline unless cardinality handling is on and they
have more than 100 distinct values, no column is in both groups, and the
columns in neither group (hence dropped by `remainder="drop"`) are exactly
the non-numeric non-categorical dtypes plus the high-cardinality
categoricals when handling is enabled. -/
theorem C4_preprocessor_partition (X : PFrame) (ds hhc : Bool)
    (plan : ColumnTransformerPlan)
    (hnodup : (X.cols.map PCol.name).Nodup)
    (hok : build_preprocessor X ds hhc = .ok plan) :
    ∀ c ∈ X.cols,
      ((c.name ∈ plan.numeric_features) ↔ c.dtype.isNumeric = true)
      ∧ ((c.name ∈ plan.categorical_features) ↔
          (c.dtype.isCategorical = true ∧ (hhc = true → c.nunique ≤ 100)))
      ∧ ¬ (c.name ∈ plan.numeric_features ∧ c.name ∈ plan.categorical_features)
      ∧ ((c.name ∉ plan.numeric_features ∧ c.name ∉ plan.categorical_features) ↔
          (c.dtype.isNumeric = false ∧
            (c.dtype.isCategorical = true → (hhc = true ∧ 100 < c.nunique)))) := by
  intro c hc
  unfold build_preprocessor at hok
  by_cases hemp : X.cols.length = 0 ∨ X.nrows = 0
  · rw [if_pos hemp] at hok
    exact Except.noConfusion hok
  · simp only [if_neg hemp, Except.ok.injEq] at hok
    subst hok
    have hnum := mem_filterName_iff X.cols (fun c => c.dtype.isNumeric) c hnodup hc
    have hcatKept :
        c.name ∈ (if hhc then
            (X.cols.filter
              (fun c => c.dtype.isCategorical && decide (c.nunique ≤ 100))).map PCol.name
          else (X.cols.filter (fun c => c.dtype.isCategorical)).map PCol.name) ↔
          (c.dtype.isCategorical = true ∧ (hhc = true → c.nunique ≤ 100)) := by
      cases hhc with
      | false =>
        simpa using
          mem_filterName_iff X.cols (fun c => c.dtype.isCategorical) c hnodup hc
      | true =>
        have h := mem_filterName_iff X.cols
          (fun c => c.dtype.isCategorical && decide (c.nunique ≤ 100)) c hnodup hc
        simp only [Bool.and_eq_true, decide_eq_true_eq] at h
        simpa using h
    refine ⟨hnum, hcatKept, ?_, ?_⟩
    · intro ⟨h1, h2⟩
      exact Dtype.not_numeric_and_categorical c.dtype ⟨hnum.mp h1, (hcatKept.mp h2).1⟩
    · simp only [hnum, hcatKept]
      cases hn : c.dtype.isNumeric <;> cases hct : c.dtype.isCategorical <;>
        cases hhc <;> simp

/-- Witness for C1 at a concrete input: a 30-row numeric target with two
distinct values is classified. -/
theorem C1_detect_task_type_witness :
    detect_task_type c1Target = .ok .classification := by
  refine (C1_detect_task_type c1Target (by decide) (by decide)).1.mpr (Or.inr ?_)
  have h2 : nuniqueList c1Target.values = 2 := by decide
  have h30 : c1Target.values.length = 30 := by decide
  rw [h2, h30]
  norm_num

/-- Counterexample to C4 as stated: on a table containing a column of a dtype
that is neither int64/float64 nor object/category (here modelled as `.other`,
e.g. a datetime64 column), the plan puts the column in neither group, so it
is silently dropped by `remainder="drop"` although it is not a
high-cardinality categorical. -/
theorem C4_counterexample :
    build_preprocessor c4Frame true true = .ok c4Plan
    ∧ "when" ∉ c4Plan.numeric_features
    ∧ "when" ∉ c4Plan.categorical_features
    ∧ (c4Frame.cols.map (fun c => c.dtype.isCategorical)) = [false, false] := by
  refine ⟨by rfl, by decide, by decide, by rfl⟩

/-- Witness for C4 at a concrete input: the float64 column of `c4Frame` lands
in the numeric group. -/
theorem C4_preprocessor_partition_witness :
    ({ name := "x", dtype := .float64, values := [some 1, some 2] } : PCol).name
      ∈ c4Plan.numeric_features :=
  ((C4_preprocessor_partition c4Frame true true c4Plan (by decide) (by rfl))
    { name := "x", dtype := .float64, values := [some 1, some 2] }
    (by decide)).1.mpr (by decide)

/-! ### Sorting and rolling-window helper lemmas -/

/-- The `sort_values` cell order is asymmetric. -/
theorem cellLt_asymm (a b : Cell) (h : cellLt a b = true) : cellLt b a = false := by
  cases a <;> cases b <;> simp_all [cellLt]
  exact le_of_lt h

/-- Inserting an index whose key is below the whole (index-)list leaves it in
front; folding insertion over an already key-sorted index list is the
identity. -/
theorem foldr_insertIdx_sorted (keys : List Cell) :
    ∀ is : List ℕ,
      List.Pairwise (fun i j => cellLt (keys.getD i none) (keys.getD j none) = true) is →
      List.foldr (insertIdx keys) [] is = is := by
  intro is
  induction is with
  | nil => intro _; rfl
  | cons i rest ih =>
      intro hp
      have hrest := ih hp.of_cons
      simp only [List.foldr_cons, hrest]
      cases rest with
      | nil => rfl
      | cons j js =>
          have hij := (List.pairwise_cons.mp hp).1 j (by simp)
          have hji := cellLt_asymm _ _ hij
          unfold insertIdx
          rw [hji]
          simp

/-- On a strictly key-sorted table the sort permutation is the identity. -/
theorem sortPerm_sorted (keys : List Cell)
    (hs : List.Pairwise (fun a b => cellLt a b = true) keys) :
    sortPerm keys = List.range keys.length := by
  apply foldr_insertIdx_sorted
  refine List.Pairwise.imp_of_mem ?_ (List.pairwise_lt_range keys.length)
  intro i j hi hj hij
  have hi' : i < keys.length := List.mem_range.mp hi
  have hj' : j < keys.length := List.mem_range.mp hj
  have hg := List.pairwise_iff_get.mp hs ⟨i, hi'⟩ ⟨j, hj'⟩ hij
  rwa [List.getD_eq_getElem _ _ hi', List.getD_eq_getElem _ _ hj']

/-- Reading every position of a list back in order reproduces the list. -/
theorem map_getD_range (l : List Cell) :
    (List.range l.length).map (fun i => l.getD i none) = l := by
  apply List.ext_getElem
  · simp
  · intro n h1 h2
    rw [List.getElem_map, List.getElem_range, List.getD_eq_getElem _ _ h2]

/-- `sort_values` keeps the column names. -/
theorem sortValues_hasCol (t : FTable) (d n : String) :
    (t.sortValues d).hasCol n = t.hasCol n := by
  unfold FTable.sortValues
  cases t.getColVals d <;> simp [FTable.hasCol, FTable.colNames, List.map_map, Function.comp]

/-- A column readable by name makes `hasCol` true. -/
theorem hasCol_of_getColVals (t : FTable) (n : String) (vs : List Cell)
    (h : t.getColVals n = some vs) : t.hasCol n = true := by
  unfold FTable.getColVals at h
  obtain ⟨col, hfind, _⟩ := Option.map_eq_some'.mp h
  have hmem := List.mem_of_find?_eq_some hfind
  have hp := List.find?_some hfind
  rw [beq_iff_eq] at hp
  unfold FTable.hasCol FTable.colNames
  rw [List.contains_iff_exists_mem_beq]
  exact ⟨col.name, List.mem_map_of_mem _ hmem, by rw [beq_iff_eq]; exact hp.symm⟩

/-- An absent name is found by no column lookup. -/
theorem find?_name_eq_none (t : FTable) (n : String)
    (h : t.hasCol n = false) : t.cols.find? (fun c => c.name == n) = none := by
  rw [List.find?_eq_none]
  intro col hmem hcname
  rw [beq_iff_eq] at hcname
  apply absurd h
  simp only [Bool.not_eq_false]
  unfold FTable.hasCol FTable.colNames
  rw [List.contains_iff_exists_mem_beq]
  exact ⟨col.name, List.mem_map_of_mem _ hmem, by rw [beq_iff_eq]; exact hcname.symm⟩

/-- On a well-formed table whose date column is strictly sorted,
`sort_values` is the identity. -/
theorem sortValues_eq_self (t : FTable) (dateCol : String) (keys : List Cell)
    (hwf : t.Wellformed)
    (hget : t.getColVals dateCol = some keys)
    (hs : List.Pairwise (fun a b => cellLt a b = true) keys) :
    t.sortValues dateCol = t := by
  have hklen : keys.length = t.nrows := by
    unfold FTable.getColVals at hget
    obtain ⟨col, hfind, hvals⟩ := Option.map_eq_some'.mp hget
    have hmem := List.mem_of_find?_eq_some hfind
    rw [← hvals]
    exact hwf col hmem
  unfold FTable.sortValues
  rw [hget]
  show FTable.mk _ = t
  have hcols : t.cols.map (fun c =>
      { c with values := (sortPerm keys).map (fun i => c.values.getD i none) }) = t.cols := by
    have h1 : ∀ c ∈ t.cols,
        ({ c with values := (sortPerm keys).map (fun i => c.values.getD i none) } : FCol)
          = c := by
      intro c hc
      have hlen : c.values.length = keys.length := by
        rw [hklen]; exact hwf c hc
      rw [sortPerm_sorted keys hs, ← hlen, map_getD_range]
    rw [List.map_congr_left h1, List.map_id']
  rw [hcols]

/-- pandas rolling mean with window 1 reproduces the column, NaN for NaN. -/
theorem rollingMean_one (l : List Cell) : rollingMean 1 l = l := by
  unfold rollingMean
  apply List.ext_getElem
  · simp
  · intro n h1 h2
    simp only [List.getElem_map, List.getElem_range]
    have hslice : windowSlice l 1 n = [l[n]] := by
      unfold windowSlice
      apply List.ext_getElem
      · simp only [List.length_drop, List.length_take, List.length_cons, List.length_nil]
        omega
      · intro k hk1 hk2
        have hk0 : k = 0 := by
          simp only [List.length_cons, List.length_nil] at hk2
          omega
        subst hk0
        simp [List.getElem_drop, List.getElem_take]
    rw [hslice]
    cases hv : l[n] with
    | none => simp
    | some x => simp

/-- Sum of concrete functions over an index range, as a `Finset` sum. -/
theorem list_sum_range_map (f : ℕ → ℚ) (n : ℕ) :
    ((List.range n).map f).sum = ∑ k in Finset.range n, f k := by
  induction n with
  | zero => simp
  | succ m ih =>
      rw [List.range_succ, List.map_append, List.sum_append, ih, Finset.sum_range_succ]
      simp

/-- The sum of the trailing window of at most `w` rows ending at row `i`
equals the interval sum over the corresponding indices. -/
theorem sum_windowSlice (xs : List ℚ) (i w : ℕ) (hi : i < xs.length) :
    ((xs.take (i + 1)).drop (i + 1 - w)).sum
      = ∑ j in Finset.Icc (i + 1 - w) i, xs.getD j 0 := by
  have hslice : (xs.take (i + 1)).drop (i + 1 - w) =
      (List.range (i + 1 - (i + 1 - w))).map (fun k => xs.getD ((i + 1 - w) + k) 0) := by
    apply List.ext_getElem
    · rw [List.length_drop, List.length_take,
        inf_eq_left.mpr (by omega : i + 1 ≤ xs.length)]
      simp
    · intro k h1 h2
      rw [List.length_drop, List.length_take,
        inf_eq_left.mpr (by omega : i + 1 ≤ xs.length)] at h1
      have hbound : (i + 1 - w) + k < xs.length := by omega
      simp only [List.getElem_map, List.getElem_range, List.getElem_drop, List.getElem_take]
      rw [List.getD_eq_getElem _ _ hbound]
  rw [hslice, ← Nat.Ico_succ_right, Finset.sum_Ico_eq_sum_range, list_sum_range_map]

/-- pandas rolling sum over a fully-present column: at each row the sum of
the trailing indices, never NaN. -/
theorem rollingSum_map_some (w : ℕ) (hw : 1 ≤ w) (xs : List ℚ) :
    rollingSum w (xs.map some) =
      (List.range xs.length).map
        (fun i => some (∑ j in Finset.Icc (i + 1 - w) i, xs.getD j 0)) := by
  unfold rollingSum
  rw [List.length_map]
  apply List.map_congr_left
  intro i hi
  have hilen : i < xs.length := List.mem_range.mp hi
  have hw1 : windowSlice (xs.map some) w i = ((xs.take (i + 1)).drop (i + 1 - w)).map some := by
    unfold windowSlice
    rw [← List.map_take, ← List.map_drop]
  have hfm : (((xs.take (i + 1)).drop (i + 1 - w)).map some).filterMap id
      = (xs.take (i + 1)).drop (i + 1 - w) := by
    rw [List.filterMap_map]
    simp
  have hlen : ((xs.take (i + 1)).drop (i + 1 - w)).length = i + 1 - (i + 1 - w) := by
    rw [List.length_drop, List.length_take,
      inf_eq_left.mpr (by omega : i + 1 ≤ xs.length)]
  simp only [hw1, hfm]
  have h0 : ((xs.take (i + 1)).drop (i + 1 - w)).length ≠ 0 := by
    rw [hlen]; omega
  rw [if_neg h0, sum_windowSlice xs i w hilen]

/-- C8: on a table sorted strictly by date whose value column has no missing
cells, `add_cumulative_features` with window `w ≥ 1` appends a column named
`<col>_cumul_<w>j` whose row-`i` value is the sum of the trailing `w` rows
including row `i` (fewer for the first rows). -/
theorem C8_cumulative_trailing_sum (df : FTable) (date_col c : String)
    (xs : List ℚ) (keys : List Cell) (w : ℕ)
    (hwf : df.Wellformed) (hw : 1 ≤ w)
    (hdate : df.getColVals date_col = some keys)
    (hsorted : List.Pairwise (fun a b => cellLt a b = true) keys)
    (hcol : df.getColVals c = some (xs.map some))
    (hfresh : df.hasCol (c ++ "_cumul_" ++ toString w ++ "j") = false) :
    exceptGetCol (add_cumulative_features df date_col [c] [w])
        (c ++ "_cumul_" ++ toString w ++ "j")
      = some ((List.range xs.length).map
          (fun i => some (∑ j in Finset.Icc (i + 1 - w) i, xs.getD j 0))) := by
  have hasdate := hasCol_of_getColVals df date_col keys hdate
  have hascol := hasCol_of_getColVals df c _ hcol
  have hsid := sortValues_eq_self df date_col keys hwf hdate hsorted
  simp only [add_cumulative_features, hasdate, if_true, hsid]
  simp only [List.filter, hascol, List.foldl_cons, List.foldl_nil, List.map_cons,
    List.map_nil, exceptGetCol, hcol, Option.getD_some]
  unfold FTable.getColVals
  rw [List.find?_append, find?_name_eq_none df _ hfresh, Option.none_or]
  simp only [List.find?_cons, beq_self_eq_true]
  simp only [Option.map_some']
  rw [rollingSum_map_some w hw xs]

/-- Witness for C8 on the 40-day table of end-to-end scenario 2, with the
row-39 value spelled out as the interval sum of rows 33–39. -/
theorem C8_cumulative_trailing_sum_witness :
    exceptGetCol (add_cumulative_features c8df "date" ["temperature"] [7])
        ("temperature" ++ "_cumul_" ++ toString 7 ++ "j")
      = some ((List.range c8xs.length).map
          (fun i => some (∑ j in Finset.Icc (i + 1 - 7) i, c8xs.getD j 0)))
    ∧ ((List.range c8xs.length).map
          (fun i => some (∑ j in Finset.Icc (i + 1 - 7) i, c8xs.getD j 0))).getD 39 none
        = some (∑ j in Finset.Icc 33 39, c8xs.getD j 0) := by
  constructor
  · exact C8_cumulative_trailing_sum c8df "date" "temperature" c8xs c8keys 7
      (by decide) (by decide) rfl (by decide) rfl (by decide)
  · have h40 : c8xs.length = 40 := by decide
    rw [h40]
    have h39 : (39 : ℕ) < ((List.range 40).map
        (fun i => some (∑ j in Finset.Icc (i + 1 - 7) i, c8xs.getD j 0))).length := by
      simp
    rw [List.getD_eq_getElem _ _ h39, List.getElem_map, List.getElem_range]

/-- C9: on a table sorted strictly by date, the rolling-mean feature with
window 1 equals the original value column exactly, row for row (missing
cells included). -/
theorem C9_rolling_mean_window_one (df : FTable) (date_col c : String)
    (keys vs : List Cell)
    (hwf : df.Wellformed)
    (hdate : df.getColVals date_col = some keys)
    (hsorted : List.Pairwise (fun a b => cellLt a b = true) keys)
    (hcol : df.getColVals c = some vs)
    (hfresh : df.hasCol (c ++ "_roll_" ++ toString 1) = false) :
    (add_rolling_features df date_col (some [c]) (some [1])).getColVals
        (c ++ "_roll_" ++ toString 1)
      = df.getColVals c := by
  have hasdate := hasCol_of_getColVals df date_col keys hdate
  have hascol := hasCol_of_getColVals df c _ hcol
  have hsid := sortValues_eq_self df date_col keys hwf hdate hsorted
  simp only [add_rolling_features, hasdate, if_true, hsid, Option.getD_some]
  simp only [List.filter, hascol, List.foldl_cons, List.foldl_nil, List.map_cons,
    List.map_nil, hcol, Option.getD_some, rollingMean_one]
  conv_lhs => unfold FTable.getColVals
  rw [List.find?_append, find?_name_eq_none df _ hfresh, Option.none_or]
  simp only [List.find?_cons, beq_self_eq_true]
  simp only [Option.map_some', hcol]

/-- Witness for C9 on a 3-row table whose value column contains a NaN. -/
theorem C9_rolling_mean_window_one_witness :
    (add_rolling_features c9df "date" (some ["temp"]) (some [1])).getColVals
        ("temp" ++ "_roll_" ++ toString 1)
      = c9df.getColVals "temp" :=
  C9_rolling_mean_window_one c9df "date" "temp" [some 0, some 1, some 2]
    [some 5, none, some 7] (by decide) rfl (by decide) rfl (by decide)

/-- C5 (amended): when the date column is absent, `add_rolling_features`
returns the input unchanged while `add_cumulative_features` and
`add_threshold_exceedance_features` fail with pandas' `KeyError` — none of
the three raises a dedicated `MissingColumnError`; requested value columns
absent from the table are silently skipped by the operations (shown for
`add_cumulative_features`), as are value columns absent from the
`thresholds` map (shown for `add_threshold_exceedance_features`). -/
theorem C5_missing_column_behaviour :
    (∀ (df : FTable) (dc : String) (vc : Option (List String)) (ws : Option (List ℕ)),
        df.hasCol dc = false → add_rolling_features df dc vc ws = df)
    ∧ (∀ (df : FTable) (dc : String) (vc : List String) (ws : List ℕ),
        df.hasCol dc = false →
          add_cumulative_features df dc vc ws = .error ("KeyError: " ++ dc))
    ∧ (∀ (df : FTable) (dc : String) (vc : List String)
        (th : List (String × ℚ)) (ws : List ℕ),
        df.hasCol dc = false →
          add_threshold_exceedance_features df dc vc th ws
            = .error ("KeyError: " ++ dc))
    ∧ (∀ (df : FTable) (dc : String) (vc : List String) (ws : List ℕ),
        df.hasCol dc = true →
          add_cumulative_features df dc vc ws
            = add_cumulative_features df dc (vc.filter (fun x => df.hasCol x)) ws)
    ∧ (∀ (df : FTable) (dc c : String) (th : List (String × ℚ)) (ws : List ℕ),
        df.hasCol dc = true → th.lookup c = none →
          add_threshold_exceedance_features df dc [c] th ws
            = .ok (df.sortValues dc)) := by
  refine ⟨?_, ?_, ?_, ?_, ?_⟩
  · intro df dc vc ws h
    simp [add_rolling_features, h]
  · intro df dc vc ws h
    simp [add_cumulative_features, h]
  · intro df dc vc th ws h
    simp [add_threshold_exceedance_features, h]
  · intro df dc vc ws h
    simp only [add_cumulative_features, h, if_true]
    have hfilters : vc.filter (fun x => (df.sortValues dc).hasCol x)
        = (vc.filter (fun x => df.hasCol x)).filter
            (fun x => (df.sortValues dc).hasCol x) := by
      simp only [sortValues_hasCol]
      rw [List.filter_filter]
      apply List.filter_congr
      intro x _
      exact (Bool.and_self _).symm
    rw [hfilters]
  · intro df dc c th ws h hlk
    simp only [add_threshold_exceedance_features, h, if_true, List.foldl_cons,
      List.foldl_nil]
    cases hhc : (df.sortValues dc).hasCol c <;> simp [hlk]

/-- Witness for C5 at concrete inputs, one per conjunct. -/
theorem C5_missing_column_behaviour_witness :
    add_rolling_features c5noDate "date" (some ["x"]) (some [3, 7]) = c5noDate
    ∧ add_cumulative_features c5noDate "date" ["x"] [7]
        = .error ("KeyError: " ++ "date")
    ∧ add_threshold_exceedance_features c5noDate "date" ["x"] [] [7]
        = .error ("KeyError: " ++ "date")
    ∧ add_cumulative_features c5df "date" ["x", "ghost"] [2]
        = add_cumulative_features c5df "date"
            (["x", "ghost"].filter (fun x => c5df.hasCol x)) [2]
    ∧ add_threshold_exceedance_features c5df "date" ["x"] [] [2]
        = .ok (c5df.sortValues "date") :=
  ⟨C5_missing_column_behaviour.1 c5noDate "date" (some ["x"]) (some [3, 7]) (by decide),
   C5_missing_column_behaviour.2.1 c5noDate "date" ["x"] [7] (by decide),
   C5_missing_column_behaviour.2.2.1 c5noDate "date" ["x"] [] [7] (by decide),
   C5_missing_column_behaviour.2.2.2.1 c5df "date" ["x", "ghost"] [2] (by decide),
   C5_missing_column_behaviour.2.2.2.2 c5df "date" "x" [] [2] (by decide) rfl⟩

/-- Counterexample to C5 as stated: with value column `ghost` absent,
`add_cumulative_features` succeeds instead of failing; with the date column
absent, `add_rolling_features` returns its input unchanged instead of
failing. -/
theorem C5_counterexample :
    exceptIsOk (add_cumulative_features c5df "date" ["x", "ghost"] [2]) = true
    ∧ c5df.hasCol "ghost" = false
    ∧ add_rolling_features c5noDate "date" (some ["x"]) (some [3]) = c5noDate := by
  refine ⟨rfl, by decide, ?_⟩
  simp [add_rolling_features]
  decide

/-- Appending a fixed suffix to strings is injective. -/
theorem string_append_right_cancel (a b s : String) (h : a ++ s = b ++ s) : a = b := by
  apply String.ext
  have hd := congrArg String.data h
  rw [String.data_append, String.data_append] at hd
  exact List.append_cancel_right hd

/-- C10: `detect_zscore_anomalies` skips a requested column whose sample std
is zero, producing neither an `<col>_outlier` flag column nor a summary
entry for it (so the z-score quotient is never formed with a zero divisor),
and produces both for a requested column whose std is not zero. -/
theorem C10_zscore_zero_std (df : FTable) (vcs : List String) (t : ℚ)
    (c : String) (vs : List Cell)
    (hc : c ∈ vcs)
    (hget : df.getColVals c = some vs) :
    (stdIsZero (vs.filterMap id) = true →
        (∀ fc ∈ (detect_zscore_anomalies df (some vcs) t).1,
            fc.name ≠ c ++ "_outlier")
        ∧ (∀ e ∈ (detect_zscore_anomalies df (some vcs) t).2, e.1 ≠ c))
    ∧ (stdIsZero (vs.filterMap id) = false →
        (∃ fc ∈ (detect_zscore_anomalies df (some vcs) t).1,
            fc.name = c ++ "_outlier")
        ∧ (∃ e ∈ (detect_zscore_anomalies df (some vcs) t).2, e.1 = c)) := by
  constructor
  · intro hstd
    constructor
    · intro fc hfc heq
      obtain ⟨c', hc', hflag⟩ := List.mem_filterMap.mp hfc
      unfold zscoreColFlag at hflag
      cases hg : df.getColVals c' with
      | none =>
          rw [hg] at hflag
          exact Option.noConfusion hflag
      | some vs' =>
          rw [hg] at hflag
          cases hstd' : stdIsZero (vs'.filterMap id) with
          | true =>
              simp only [hstd', if_true] at hflag
              exact Option.noConfusion hflag
          | false =>
              simp only [hstd', Bool.false_eq_true, if_false, Option.some.injEq] at hflag
              have hname : c' ++ "_outlier" = c ++ "_outlier" := by
                rw [← heq, ← hflag]
              have hcc : c' = c := string_append_right_cancel c' c "_outlier" hname
              subst hcc
              rw [hget] at hg
              cases hg
              rw [hstd'] at hstd
              exact Bool.noConfusion hstd
    · intro e he heq
      obtain ⟨c', hc', hsumm⟩ := List.mem_filterMap.mp he
      unfold zscoreColSummary at hsumm
      cases hg : df.getColVals c' with
      | none =>
          rw [hg] at hsumm
          exact Option.noConfusion hsumm
      | some vs' =>
          rw [hg] at hsumm
          cases hstd' : stdIsZero (vs'.filterMap id) with
          | true =>
              simp only [hstd', if_true] at hsumm
              exact Option.noConfusion hsumm
          | false =>
              simp only [hstd', Bool.false_eq_true, if_false, Option.some.injEq] at hsumm
              have hcc : c' = c := by rw [← heq, ← hsumm]
              subst hcc
              rw [hget] at hg
              cases hg
              rw [hstd'] at hstd
              exact Bool.noConfusion hstd
  · intro hstd
    constructor
    · have hflag : zscoreColFlag df t c = some
          { name := c ++ "_outlier"
            flags := vs.map (fun v =>
              match v with
              | some x => zExceeds (vs.filterMap id) t x
              | none => false) } := by
        unfold zscoreColFlag
        rw [hget]
        simp only [hstd, Bool.false_eq_true, if_false]
      exact ⟨_, List.mem_filterMap.mpr ⟨c, hc, hflag⟩, rfl⟩
    · have hsumm : zscoreColSummary df t c = some
          (c, (vs.map (fun v =>
              match v with
              | some x => zExceeds (vs.filterMap id) t x
              | none => false)).count true,
            if 0 < df.nrows
            then 100 * (((vs.map (fun v =>
                match v with
                | some x => zExceeds (vs.filterMap id) t x
                | none => false)).count true : ℚ)) / (df.nrows : ℚ)
            else 0) := by
        unfold zscoreColSummary
        rw [hget]
        simp only [hstd, Bool.false_eq_true, if_false]
      exact ⟨_, List.mem_filterMap.mpr ⟨c, hc, hsumm⟩, rfl⟩

/-- C2: a model whose fit/predict raises yields a failure record carrying
exactly the exception message and null scores, and the comparison loop
records it and moves on: one invalid plus one valid candidate give a results
list of length 2 with the failure (message preserved) first and the success
second. -/
theorem C2_trainer_failure_isolated :
    (∀ (name : String) (m : FitOutcome) (y_train y_test : List ℚ)
        (task : TaskKind) (use_cv : Bool) (e : String),
        m.fitPredict = .error e →
          train_and_evaluate_model name m y_train y_test task use_cv
            = { model_name := name, test_score := none, train_score := none,
                f1_score := none, rmse := none, cv_scores := none,
                metric_name := none, success := false, error := some e })
    ∧ (∀ (n1 n2 : String) (m1 m2 : FitOutcome) (y_train y_test : List ℚ)
        (task : TaskKind) (use_cv : Bool) (e : String) (p : List ℚ × List ℚ),
        m1.fitPredict = .error e → m2.fitPredict = .ok p →
          (compare_models_loop [(n1, m1), (n2, m2)] y_train y_test task use_cv).length = 2
          ∧ (compare_models_loop [(n1, m1), (n2, m2)] y_train y_test task use_cv).map
              (fun r => r.success) = [false, true]
          ∧ (compare_models_loop [(n1, m1), (n2, m2)] y_train y_test task use_cv).map
              (fun r => r.error) = [some e, none]) := by
  constructor
  · intro name m y_train y_test task use_cv e hfp
    unfold train_and_evaluate_model
    rw [hfp]
  · intro n1 n2 m1 m2 y_train y_test task use_cv e p h1 h2
    refine ⟨rfl, ?_, ?_⟩ <;>
      simp [compare_models_loop, train_and_evaluate_model, h1, h2]

/-- Witness for C2 at concrete models: the invalid one fails with its
message, the valid one succeeds, both recorded in order. -/
theorem C2_trainer_failure_isolated_witness :
    train_and_evaluate_model "Bad" c2fail [0, 1, 1] [1, 0] .regression false
      = { model_name := "Bad", test_score := none, train_score := none,
          f1_score := none, rmse := none, cv_scores := none,
          metric_name := none, success := false,
          error := some "ValueError: max_depth must be greater than zero" }
    ∧ (compare_models_loop [("Bad", c2fail), ("Good", c2ok)]
          [0, 1, 1] [1, 0] .regression false).map (fun r => r.success)
        = [false, true] :=
  ⟨C2_trainer_failure_isolated.1 "Bad" c2fail [0, 1, 1] [1, 0] .regression false
      "ValueError: max_depth must be greater than zero" rfl,
   (C2_trainer_failure_isolated.2 "Bad" "Good" c2fail c2ok [0, 1, 1] [1, 0]
      .regression false "ValueError: max_depth must be greater than zero"
      ([1, 2], [1, 2, 3]) rfl rfl).2.1⟩

/-- C3 (code evidence): the refinement page passes
`selected_models=["Random Forest (Tuned)"]` to `compare_models`, a name that
matches no catalog entry for any task or speed mode, so the candidate set is
empty and the training loop produces no `TrainResult` at all — the freshly
built tuned model is never trained and no score delta can be reported. -/
theorem C3_refinement_trains_nothing :
    ∀ (task : TaskKind) (fast_mode : Bool) (behave : String → FitOutcome)
      (y_train y_test : List ℚ) (use_cv : Bool),
      compare_models_results task fast_mode (some ["Random Forest (Tuned)"]) behave
        y_train y_test use_cv = [] := by
  intro task fast behave y_train y_test use_cv
  have h : filter_selected (get_available_models task fast)
      (some ["Random Forest (Tuned)"]) = [] := by
    cases task <;> cases fast <;> decide
  unfold compare_models_results compare_models_loop
  rw [h]
  rfl

/-- Unfolding of `argmaxFirst` on a list of two or more entries. -/
theorem argmaxFirst_cons₂ (x y : ℚ) (ys : List ℚ) :
    argmaxFirst (x :: y :: ys)
      = if (y :: ys).getD (argmaxFirst (y :: ys)) 0 ≤ x then 0
        else argmaxFirst (y :: ys) + 1 := by
  rfl

/-- `np.argmax` returns an in-range index on a non-empty list. -/
theorem argmaxFirst_lt_length (l : List ℚ) (h : l ≠ []) :
    argmaxFirst l < l.length := by
  induction l with
  | nil => exact absurd rfl h
  | cons x xs ih =>
      cases xs with
      | nil => simp [argmaxFirst]
      | cons y ys =>
          rw [argmaxFirst_cons₂]
          have hlt := ih (by simp)
          by_cases hc : (y :: ys).getD (argmaxFirst (y :: ys)) 0 ≤ x
          · rw [if_pos hc]
            simp
          · rw [if_neg hc]
            simp only [List.length_cons] at hlt ⊢
            omega

/-- The entry at the `np.argmax` index dominates every entry. -/
theorem argmaxFirst_is_max (l : List ℚ) :
    ∀ j, j < l.length → l.getD j 0 ≤ l.getD (argmaxFirst l) 0 := by
  induction l with
  | nil => intro j hj; simp at hj
  | cons x xs ih =>
      cases xs with
      | nil =>
          intro j hj
          simp only [List.length_cons, List.length_nil] at hj
          have hj0 : j = 0 := by omega
          subst hj0
          simp [argmaxFirst]
      | cons y ys =>
          intro j hj
          rw [argmaxFirst_cons₂]
          by_cases hc : (y :: ys).getD (argmaxFirst (y :: ys)) 0 ≤ x
          · rw [if_pos hc]
            cases j with
            | zero => simp
            | succ k =>
                have hk := ih k (by simp only [List.length_cons] at hj ⊢; omega)
                rw [List.getD_cons_succ, List.getD_cons_zero]
                exact le_trans hk hc
          · rw [if_neg hc]
            push_neg at hc
            cases j with
            | zero =>
                rw [List.getD_cons_zero, List.getD_cons_succ]
                exact le_of_lt hc
            | succ k =>
                rw [List.getD_cons_succ, List.getD_cons_succ]
                exact ih k (by simp only [List.length_cons] at hj ⊢; omega)

/-- Every entry strictly before the `np.argmax` index is strictly below the
maximal entry: ties are resolved towards the first occurrence. -/
theorem argmaxFirst_first (l : List ℚ) :
    ∀ j, j < argmaxFirst l → l.getD j 0 < l.getD (argmaxFirst l) 0 := by
  induction l with
  | nil => intro j hj; simp [argmaxFirst] at hj
  | cons x xs ih =>
      cases xs with
      | nil => intro j hj; simp [argmaxFirst] at hj
      | cons y ys =>
          intro j hj
          rw [argmaxFirst_cons₂] at hj ⊢
          by_cases hc : (y :: ys).getD (argmaxFirst (y :: ys)) 0 ≤ x
          · rw [if_pos hc] at hj
            exact absurd hj (Nat.not_lt_zero j)
          · rw [if_neg hc] at hj ⊢
            push_neg at hc
            cases j with
            | zero =>
                rw [List.getD_cons_zero, List.getD_cons_succ]
                exact hc
            | succ k =>
                rw [List.getD_cons_succ, List.getD_cons_succ]
                exact ih k (by omega)

/-- C6: with at least one success, the chosen best model is a successful
result whose test score dominates every successful result's, and every
earlier successful result scores strictly lower — on a tie the first
encountered in catalog iteration order wins. -/
theorem C6_best_first_argmax (results : List TrainResult)
    (hne : results.filter (fun r => r.success) ≠ []) :
    ∃ (i : ℕ) (hi : i < (results.filter (fun r => r.success)).length),
      display_comparison_best results
          = some ((results.filter (fun r => r.success)).get ⟨i, hi⟩)
      ∧ (∀ (j : ℕ) (hj : j < (results.filter (fun r => r.success)).length),
          ((results.filter (fun r => r.success)).get ⟨j, hj⟩).test_score.getD 0
            ≤ ((results.filter (fun r => r.success)).get ⟨i, hi⟩).test_score.getD 0)
      ∧ (∀ (j : ℕ) (hj : j < (results.filter (fun r => r.success)).length), j < i →
          ((results.filter (fun r => r.success)).get ⟨j, hj⟩).test_score.getD 0
            < ((results.filter (fun r => r.success)).get ⟨i, hi⟩).test_score.getD 0) := by
  have hmapne : (results.filter (fun r => r.success)).map
      (fun r => r.test_score.getD 0) ≠ [] := by
    intro hmap
    exact hne (List.map_eq_nil_iff.mp hmap)
  have hilt := argmaxFirst_lt_length _ hmapne
  rw [List.length_map] at hilt
  refine ⟨argmaxFirst ((results.filter (fun r => r.success)).map
    (fun r => r.test_score.getD 0)), hilt, ?_, ?_, ?_⟩
  · unfold display_comparison_best
    rw [if_neg (by simpa [List.isEmpty_iff] using hne)]
    exact List.get?_eq_get hilt
  · intro j hj
    have h := argmaxFirst_is_max ((results.filter (fun r => r.success)).map
      (fun r => r.test_score.getD 0)) j (by rwa [List.length_map])
    rwa [List.getD_eq_getElem _ _ (by rwa [List.length_map]),
      List.getD_eq_getElem _ _ (by rwa [List.length_map]),
      List.getElem_map, List.getElem_map] at h
  · intro j hj hji
    have h := argmaxFirst_first ((results.filter (fun r => r.success)).map
      (fun r => r.test_score.getD 0)) j hji
    rwa [List.getD_eq_getElem _ _ (by rwa [List.length_map]),
      List.getD_eq_getElem _ _ (by rwa [List.length_map]),
      List.getElem_map, List.getElem_map] at h

/-- Witness for C6 on a concrete run with a failure and a tie: the first of
the two equally-scored successes is chosen. -/
theorem C6_best_first_argmax_witness :
    display_comparison_best [c6f, c6a, c6b] = some c6a := by
  obtain ⟨i, hi, hbest, hmax, hfirst⟩ := C6_best_first_argmax [c6f, c6a, c6b] (by decide)
  have hlen : ([c6f, c6a, c6b].filter (fun r => r.success)).length = 2 := by decide
  cases i with
  | zero => exact hbest
  | succ i' =>
      cases i' with
      | zero =>
          have h01 := hfirst 0 (by decide) (by omega)
          simp [c6f, c6a, c6b, List.filter] at h01
      | succ n =>
          rw [hlen] at hi
          omega

/-- C7 (amended): the split is stratified exactly for classification runs
with `handle_imbalance` off and feasible stratification; it falls back to a
plain split when stratification raises; classification with
`handle_imbalance` on and regression always split plainly; the seed is the
constant 42 and the caller's test fraction is passed through. -/
theorem C7_split_policy (task : TaskKind) (hi : Bool) (y : List ℚ) (ts : ℚ) :
    (task = .classification → hi = false → stratifyRaises y = false →
        compare_models_split task hi y ts
          = { stratified := true, random_state := 42, test_size := ts })
    ∧ (task = .classification → hi = false → stratifyRaises y = true →
        compare_models_split task hi y ts
          = { stratified := false, random_state := 42, test_size := ts })
    ∧ (task = .classification → hi = true →
        compare_models_split task hi y ts
          = { stratified := false, random_state := 42, test_size := ts })
    ∧ (task = .regression →
        compare_models_split task hi y ts
          = { stratified := false, random_state := 42, test_size := ts }) := by
  refine ⟨?_, ?_, ?_, ?_⟩
  · intro h1 h2 h3
    subst h1; subst h2
    simp [compare_models_split, h3]
  · intro h1 h2 h3
    subst h1; subst h2
    simp [compare_models_split, h3]
  · intro h1 h2
    subst h1; subst h2
    simp [compare_models_split]
  · intro h1
    subst h1
    simp [compare_models_split]

/-- Witness for C7: a feasible stratified classification split with the
default test fraction. -/
theorem C7_split_policy_witness :
    compare_models_split .classification false [0, 0, 1, 1] (1 / 5)
      = { stratified := true, random_state := 42, test_size := 1 / 5 } :=
  (C7_split_policy .classification false [0, 0, 1, 1] (1 / 5)).1 rfl rfl (by decide)

/-- Counterexample to C7 as stated: a classification run with
`handle_imbalance=True` and perfectly feasible stratification (every class
has two members) still gets a plain, unstratified split. -/
theorem C7_counterexample :
    compare_models_split .classification true [0, 0, 1, 1] (1 / 5)
      = { stratified := false, random_state := 42, test_size := 1 / 5 }
    ∧ stratifyRaises [0, 0, 1, 1] = false := by
  refine ⟨by simp [compare_models_split], by decide⟩

/-- Witness for C10 on a concrete table: the constant column (std 0) gets no
flag column, the varying column gets one. -/
theorem C10_zscore_zero_std_witness :
    (∀ fc ∈ (detect_zscore_anomalies c10df (some ["const", "var"]) 3).1,
        fc.name ≠ "const" ++ "_outlier")
    ∧ (∃ fc ∈ (detect_zscore_anomalies c10df (some ["const", "var"]) 3).1,
        fc.name = "var" ++ "_outlier") := by
  constructor
  · exact ((C10_zscore_zero_std c10df ["const", "var"] 3 "const"
      [some 1, some 1, some 1] (by decide) rfl).1
        (by
          have hfm : List.filterMap id [some (1 : ℚ), some 1, some 1] = [1, 1, 1] := by
            decide
          rw [hfm]
          norm_num [stdIsZero, sqDevSum, listMean])).1
  · exact ((C10_zscore_zero_std c10df ["const", "var"] 3 "var"
      [some 0, some 2, some 0] (by decide) rfl).2
        (by
          have hfm : List.filterMap id [some (0 : ℚ), some 2, some 0] = [0, 2, 0] := by
            decide
          rw [hfm]
          norm_num [stdIsZero, sqDevSum, listMean])).1

end ClimTool
